import Mathlib

/-!
Shallow embedding of `spotify-import.py` (class `SpotifyAPI` and the parts of
`main` that construct sessions), together with proofs of the specification's
claims about it.

Conventions of the embedding:
* Machine-level HTTP transport is abstracted as a function from the request
  URL and a global attempt counter to an outcome (`Except Unit α`): `.ok v`
  models a 2xx response whose body decodes to `v`, `.error ()` models any
  exception raised by `urllib.request.urlopen` / decoding.
* `sys.exit(1)` is modelled by a distinguished result constructor that carries
  no value (`GetResult.exit`), recording the attempt counter at exit time.
* Python dict truthiness (`if params:`) and `Option`-string truthiness
  (`while response['next']:`, where both `None` and `''` are falsy) are
  modelled explicitly.
* The `while True: server.handle_request()` loop of `authorize` is driven by
  the finite list of requests that actually arrive; an empty remainder means
  the loop is still blocked waiting for a connection.
-/

namespace SpotifyImport

/-- One hex digit, upper case, as produced by Python `urllib.parse.quote`. -/
def hexDigit (n : Nat) : Char :=
  if n < 10 then Char.ofNat (48 + n) else Char.ofNat (65 + n - 10)

/-- UTF-8 encoding of a single character, as a list of byte values.
Python `quote` percent-encodes the UTF-8 bytes of non-safe characters. -/
def charUtf8Bytes (c : Char) : List Nat :=
  let n := c.toNat
  if n < 128 then [n]
  else if n < 2048 then [192 + n / 64, 128 + n % 64]
  else if n < 65536 then [224 + n / 4096, 128 + (n / 64) % 64, 128 + n % 64]
  else [240 + n / 262144, 128 + (n / 4096) % 64, 128 + (n / 64) % 64, 128 + n % 64]

/-- `%XX` escape for one byte value. -/
def percentByte (b : Nat) : String :=
  String.mk ['%', hexDigit (b / 16), hexDigit (b % 16)]

/-- Python `urllib.parse.quote_plus` on one character: space becomes `+`,
ASCII alphanumerics and `_.-~` are kept, everything else is percent-encoded
byte-wise (UTF-8). -/
def quotePlusChar (c : Char) : String :=
  if c = ' ' then "+"
  else if c.isAlphanum || c = '_' || c = '.' || c = '-' || c = '~' then
    String.singleton c
  else
    String.join ((charUtf8Bytes c).map percentByte)

/-- Python `urllib.parse.quote_plus` on a string. -/
def quotePlus (s : String) : String :=
  String.join (s.data.map quotePlusChar)

/-- Python `urllib.parse.urlencode` on an (insertion-ordered) mapping of
string keys to string values: `k=v` pairs quoted with `quote_plus` and
joined by `&`, in insertion order. -/
def urlencode (params : List (String × String)) : String :=
  String.intercalate "&" (params.map fun kv => quotePlus kv.1 ++ "=" ++ quotePlus kv.2)

/-- Python `s.startswith(pre)`, over the character sequences. -/
def strStartsWith (s pre : String) : Bool := pre.data.isPrefixOf s.data

/-- Python `c in s` for a single character. -/
def strContains (s : String) (c : Char) : Bool := s.data.contains c

/-- The Spotify API base URL hard-coded in `get` and `post`. -/
def baseUrl : String := "https://api.spotify.com/v1/"

/-- Python dict truthiness test `if params:` — true iff non-empty.
The dict is returned unchanged: the test reads it without mutating it. -/
def dictTruth (d : List (String × String)) : Bool × List (String × String) :=
  (!d.isEmpty, d)

/-- `urllib.parse.urlencode(params)` as an operation on the dict: it reads the
mapping and returns it unchanged alongside the encoded string. -/
def dictUrlencode (d : List (String × String)) : String × List (String × String) :=
  (urlencode d, d)

/-- URL construction shared verbatim by `SpotifyAPI.get` (lines 33–36) and
`SpotifyAPI.post` (lines 71–74): prefix with the base URL unless the path
already starts with it, then, if `params` is truthy, append
`urlencode(params)` after `&` when the URL already contains `?`, else after
`?`. Returns the constructed URL together with the params dict as it stands
after the call (the code only reads it). -/
def buildUrlD (url : String) (params : List (String × String)) :
    String × List (String × String) :=
  let url := if strStartsWith url baseUrl then url else baseUrl ++ url
  let bd := dictTruth params
  if bd.1 then
    let qd := dictUrlencode bd.2
    (url ++ (if strContains url '?' then "&" else "?") ++ qd.1, qd.2)
  else
    (url, bd.2)

/-- The constructed URL alone. -/
def buildUrl (url : String) (params : List (String × String)) : String :=
  (buildUrlD url params).1

/-- Result of the retry loop in `get` / `post`: either a decoded response
value together with the attempt counter after the successful call, or
`exit c`, modelling `sys.exit(1)` (non-zero process termination, no value
returned to the caller) after `c` total attempts. -/
inductive GetResult (α : Type) where
  | ok (v : α) (calls : Nat)
  | exit (calls : Nat)
deriving DecidableEq, Repr

/-- The retry loop `for _ in range(tries): try ... except ...` of `get` and
`post`: each iteration performs one transport attempt `t c` (where `c` is the
global attempt counter); a success returns immediately, a failure sleeps and
retries; falling off the loop is `sys.exit(1)`. -/
def getLoop (t : Nat → Except Unit α) : Nat → Nat → GetResult α
  | 0, c => .exit c
  | n + 1, c =>
    match t c with
    | .ok v => .ok v (c + 1)
    | .error _ => getLoop t n (c + 1)

/-- `SpotifyAPI.get(url, params, tries)` over an abstract transport
`t : url → attempt index → outcome`. Returns the retry-loop result and the
params dict as left after the call. -/
def get (t : String → Nat → Except Unit α) (url : String)
    (params : List (String × String)) (tries c : Nat) :
    GetResult α × List (String × String) :=
  let ud := buildUrlD url params
  (getLoop (t ud.1) tries c, ud.2)

/-- `SpotifyAPI.post(url, params, data, tries)`: same URL construction and
retry loop as `get`; the serialized JSON body (`data`, already encoded to a
string, `none` when absent) is handed to the transport with the URL. -/
def post (tp : String → Option String → Nat → Except Unit α) (url : String)
    (params : List (String × String)) (data : Option String) (tries c : Nat) :
    GetResult α × List (String × String) :=
  let ud := buildUrlD url params
  (getLoop (tp ud.1 data) tries c, ud.2)

/-- A paginated response, as `list` consumes it: the `items` array, the
`next` page URL (`none` models JSON `null`) and the `total` count. -/
structure Page (α : Type) where
  items : List α
  next : Option String
  total : Nat
deriving DecidableEq, Repr

/-- Python truthiness of `response['next']`: `None` and the empty string are
falsy, any other string is truthy. -/
def optTruthy : Option String → Bool
  | none => false
  | some s => !s.data.isEmpty

/-- Outcome of `SpotifyAPI.list`: the joined items, or `fatal` when some
`get` call inside it exhausted its retries (the process exits, no list — not
even a partial one — is returned), or `fuelOut` when the modelling fuel ran
out before the loop terminated (never the code's own behaviour). -/
inductive ListOutcome (α : Type) where
  | ok (items : List α)
  | fatal
  | fuelOut
deriving DecidableEq, Repr

/-- The `while response['next']:` loop of `SpotifyAPI.list`: while the next
URL is truthy, fetch it via `get(response['next'])` (default params `{}` and
default `tries=3`) and append its items. `fuel` bounds the number of
follow-up requests in the model only. -/
def listGo (t : String → Nat → Except Unit (Page α)) :
    Nat → List α → Option String → Nat → ListOutcome α
  | _, acc, none, _ => .ok acc
  | c, acc, some u, fuel =>
    if u.data.isEmpty then .ok acc
    else
      match fuel with
      | 0 => .fuelOut
      | fuel + 1 =>
        match (get t u [] 3 c).1 with
        | .exit _ => .fatal
        | .ok p c' => listGo t c' (acc ++ p.items) p.next fuel

/-- `SpotifyAPI.list(url, params)`: an initial `get(url, params)` (default
`tries=3`), then the follow-the-`next`-link loop. Returns the outcome and
the params dict as left after the call. -/
def list (t : String → Nat → Except Unit (Page α)) (url : String)
    (params : List (String × String)) (fuel : Nat) :
    ListOutcome α × List (String × String) :=
  let rd := get t url params 3 0
  (match rd.1 with
   | .exit _ => .fatal
   | .ok p c => listGo t c p.items p.next fuel,
   rd.2)

/-- The follow-up pages `ps` form the chain the walker consumes starting
from link `nxt`: each link visited is truthy and the link after the final
page is falsy (`None` or the empty string), so the loop stops there. -/
def linkOk : Option String → List (Page α) → Prop
  | nxt, [] => optTruthy nxt = false
  | nxt, p :: rest => optTruthy nxt = true ∧ linkOk p.next rest

/-- A well-formed paginated response sequence: every page before the last
has a truthy `next` link and the last page's `next` is null. -/
def wellChained : List (Page α) → Prop
  | [] => True
  | [p] => p.next = none
  | p :: rest => optTruthy p.next = true ∧ wellChained rest

/-- `SpotifyAPI._SERVER_PORT`. -/
def SERVER_PORT : Nat := 43019

/-- The authorization URL built by `SpotifyAPI.authorize`. -/
def authorizeUrl (client_id scope : String) : String :=
  "https://accounts.spotify.com/authorize?" ++ urlencode
    [("response_type", "token"),
     ("client_id", client_id),
     ("scope", scope),
     ("redirect_uri", "http://127.0.0.1:" ++ toString SERVER_PORT ++ "/redirect")]

/-- `re.search('access_token=([^&]*)', path)` followed by `.group(1)`:
the characters after the first occurrence of `access_token=`, up to but not
including the next `&` (possibly the empty string); `none` when the literal
`access_token=` does not occur (in the code, `.group(1)` on `None` raises
`AttributeError`). -/
def afterFirstMatch (needle : List Char) : List Char → Option (List Char)
  | [] => if needle.isEmpty then some [] else none
  | c :: cs =>
    if needle.isPrefixOf (c :: cs) then some (List.drop needle.length (c :: cs))
    else afterFirstMatch needle cs

/-- Token extraction from the captured `/token?...` path. -/
def extractToken (path : String) : Option String :=
  (afterFirstMatch "access_token=".data path.data).map
    fun rest => String.mk (rest.takeWhile fun c => c ≠ '&')

/-- What one `do_GET` call does, per branch of the handler:
`redirectPage` — `/redirect...`: 200 with the fragment-forwarding script,
loop continues; `tokenRaise tok` — `/token?...` with a matching
`access_token=`: 200 "you may close this window" page, then
`raise SpotifyAPI._Authorization(tok)`; `matchError` — `/token?...` whose
query has no `access_token=`: `re.search` returns `None` and `.group(1)`
raises `AttributeError`; `notFound` — anything else: `send_error(404)`,
loop continues. -/
inductive HandlerOutcome where
  | redirectPage
  | tokenRaise (tok : String)
  | matchError
  | notFound
deriving DecidableEq, Repr

/-- `SpotifyAPI._AuthorizationHandler.do_GET`, branching on `self.path`. -/
def do_GET (path : String) : HandlerOutcome :=
  if strStartsWith path "/redirect" then .redirectPage
  else if strStartsWith path "/token?" then
    match extractToken path with
    | some tok => .tokenRaise tok
    | none => .matchError
  else .notFound

/-- Outcome of the `while True: server.handle_request()` loop of `authorize`
on a finite sequence of incoming request paths. `handle_error` re-raises, so
any exception from `do_GET` escapes the loop: `token tok` is the
`_Authorization` exception carrying the captured token, `crashed` is any
other exception (the `AttributeError` of a failed match), `waiting` means
every arrived request was handled without terminating and the loop is
blocked on the next `handle_request()`. -/
inductive AuthOutcome where
  | token (tok : String)
  | crashed
  | waiting
deriving DecidableEq, Repr

/-- The serving loop over the requests that arrive, in order. -/
def serveLoop : List String → AuthOutcome
  | [] => .waiting
  | p :: rest =>
    match do_GET p with
    | .tokenRaise tok => .token tok
    | .matchError => .crashed
    | .redirectPage => serveLoop rest
    | .notFound => serveLoop rest

/-- The `SpotifyAPI` object: `__init__` stores the OAuth token in `_auth`
(the bearer session of the spec). -/
structure SpotifyAPI where
  auth : String
deriving DecidableEq, Repr

/-- Result of `SpotifyAPI.authorize`: a constructed `SpotifyAPI` session, an
abnormal termination (an exception other than `_Authorization` escaped —
`authorize` catches only `_Authorization`), or still blocked waiting. -/
inductive AuthorizeResult where
  | session (api : SpotifyAPI)
  | abnormal
  | blocked
deriving DecidableEq, Repr

/-- `SpotifyAPI.authorize(client_id, scope)`: builds and logs the
authorization URL, opens the browser (side effects not modelled), then runs
the serving loop until `_Authorization` is caught and wrapped in
`SpotifyAPI(auth.access_token)`. -/
def authorize (client_id scope : String) (reqs : List String) : AuthorizeResult :=
  let _url := authorizeUrl client_id scope
  match serveLoop reqs with
  | .token tok => .session ⟨tok⟩
  | .crashed => .abnormal
  | .waiting => .blocked

/-- The session-construction branch of `main`: `if args.token:` (Python
truthiness — an empty or absent token is falsy) uses the caller-supplied
token directly, otherwise `authorize` runs. -/
def mainSession (tokenArg : String) (client_id scope : String)
    (reqs : List String) : AuthorizeResult :=
  if tokenArg.data.isEmpty then authorize client_id scope reqs
  else .session ⟨tokenArg⟩

/-! ### Concrete transports used by witnesses -/

/-- A transport that fails every attempt. -/
def tFailW : String → Nat → Except Unit Nat := fun _ _ => .error ()

/-- A POST transport that fails every attempt. -/
def tpFailW : String → Option String → Nat → Except Unit Nat := fun _ _ _ => .error ()

/-- A transport that fails attempts 0 and 1 and succeeds on attempt 2. -/
def tRecW : String → Nat → Except Unit Nat :=
  fun _ i => if i = 2 then .ok 7 else .error ()

/-- Two chained pages: 10, 20 on the first, 30 on the second. -/
def pagesW : List (Page Nat) :=
  [⟨[10, 20], some "https://api.spotify.com/v1/p2", 3⟩, ⟨[30], none, 3⟩]

/-- A transport serving `pagesW` in order, one page per attempt. -/
def tPagesW : String → Nat → Except Unit (Page Nat) :=
  fun _ i => if i = 0 then .ok ⟨[10, 20], some "https://api.spotify.com/v1/p2", 3⟩
    else .ok ⟨[30], none, 3⟩

/-- A transport whose first attempt yields a page with a truthy `next` and
whose every later attempt fails. -/
def tMidFailW : String → Nat → Except Unit (Page Nat) :=
  fun _ i => if i = 0 then .ok ⟨[10, 20], some "https://api.spotify.com/v1/p2", 3⟩
    else .error ()

/-! ### Helper lemmas about the retry loop -/

/-- If every attempt from `c` on fails, the retry loop makes all `n` attempts
and exits. -/
theorem getLoop_allFail (t : Nat → Except Unit α) (n c : Nat)
    (h : ∀ i, c ≤ i → t i = .error ()) : getLoop t n c = .exit (c + n) := by
  induction n generalizing c with
  | zero => simp [getLoop]
  | succ n ih =>
    simp only [getLoop, h c le_rfl]
    rw [ih (c + 1) fun i hi => h i (by omega)]
    congr 1
    omega

/-- If the first `n` attempts from `c` fail and attempt `c + n` succeeds,
the retry loop returns the success after `n + 1` attempts. -/
theorem getLoop_recover (t : Nat → Except Unit α) (v : α) :
    ∀ n c : Nat, (∀ i, i < n → t (c + i) = .error ()) → t (c + n) = .ok v →
      getLoop t (n + 1) c = .ok v (c + n + 1) := by
  intro n
  induction n with
  | zero =>
    intro c _ hok
    rw [Nat.add_zero] at hok
    simp [getLoop, hok]
  | succ n ih =>
    intro c hf hok
    have hc : t c = .error () := by simpa using hf 0 (by omega)
    simp only [getLoop, hc]
    have hrec := ih (c + 1)
      (fun i hi => by
        have := hf (i + 1) (by omega)
        rwa [show c + (i + 1) = c + 1 + i by omega] at this)
      (by rwa [show c + (n + 1) = c + 1 + n by omega] at hok)
    simp only [getLoop] at hrec
    rw [hrec]
    congr 1
    omega

/-- A single `get` that succeeds on its first attempt: one attempt is used. -/
theorem get_firstTry {α : Type} (t : String → Nat → Except Unit α) (v : α)
    (url : String) (params : List (String × String)) (c : Nat)
    (h : t (buildUrlD url params).1 c = .ok v) :
    (get t url params 3 c).1 = .ok v (c + 1) := by
  show getLoop (t (buildUrlD url params).1) 3 c = _
  simp [getLoop, h]

/-- The follow-the-`next`-link loop consumes exactly a well-linked chain of
pages served one per attempt, appending their items in order, with fuel
equal to the chain length. -/
theorem listGo_chain {α : Type} (t : String → Nat → Except Unit (Page α)) :
    ∀ (ps : List (Page α)) (c : Nat) (acc : List α) (nxt : Option String),
      (∀ u i (h : i < ps.length), t u (c + i) = .ok (ps.get ⟨i, h⟩)) →
      linkOk nxt ps →
      listGo t c acc nxt ps.length = .ok (acc ++ (ps.map Page.items).flatten) := by
  intro ps
  induction ps with
  | nil =>
    intro c acc nxt _ hlink
    match nxt with
    | none => simp [listGo]
    | some u =>
      have hu : u.data.isEmpty = true := by simpa [linkOk, optTruthy] using hlink
      simp [listGo, hu]
  | cons p rest ih =>
    intro c acc nxt ht hlink
    obtain ⟨htr, hrest⟩ : optTruthy nxt = true ∧ linkOk p.next rest := hlink
    match nxt with
    | none => simp [optTruthy] at htr
    | some u =>
      have hune : u.data.isEmpty = false := by simpa [optTruthy] using htr
      have hget : (get t u [] 3 c).1 = .ok p (c + 1) :=
        get_firstTry t p u [] c (by simpa using ht (buildUrlD u []).1 0 (by simp))
      have ht' : ∀ v i (h : i < rest.length), t v (c + 1 + i) = .ok (rest.get ⟨i, h⟩) := by
        intro v i h
        have := ht v (i + 1) (by simp; omega)
        rwa [show c + (i + 1) = c + 1 + i by omega] at this
      have hrec := ih (c + 1) (acc ++ p.items) p.next ht' hrest
      show listGo t c acc (some u) (rest.length + 1) = _
      simp only [listGo, hune, Bool.false_eq_true, if_false, hget]
      rw [hrec]
      simp

/-- A well-formed chain, viewed from its first page's `next` link. -/
theorem linkOk_of_wellChained {α : Type} :
    ∀ (rest : List (Page α)) (p : Page α), wellChained (p :: rest) → linkOk p.next rest := by
  intro rest
  induction rest with
  | nil =>
    intro p h
    have hp : p.next = none := h
    show optTruthy p.next = false
    rw [hp]
    rfl
  | cons q qs ih =>
    intro p h
    obtain ⟨h1, h2⟩ := h
    exact ⟨h1, ih q h2⟩

/-- Requests handled with a `redirectPage` or `notFound` outcome do not end
the serving loop: the loop continues past them. -/
theorem serveLoop_skips :
    ∀ (reqs : List String),
      (∀ q ∈ reqs, do_GET q = .redirectPage ∨ do_GET q = .notFound) →
      ∀ rest, serveLoop (reqs ++ rest) = serveLoop rest := by
  intro reqs
  induction reqs with
  | nil => intro _ rest; rfl
  | cons q rs ih =>
    intro h rest
    rcases h q (by simp) with hq | hq <;>
      simp only [List.cons_append, serveLoop, hq] <;>
      exact ih (fun r hr => h r (by simp [hr])) rest

/-! ### Claim theorems -/

set_option maxRecDepth 10000

/-- C2: against a transport that fails every call, `get` and `post` attempt
the request exactly `tries` times — the exit counter equals `tries`, no more,
no fewer — and then terminate the process fatally (`GetResult.exit` models
`sys.exit(1)`, a non-zero exit status), returning no value to the caller. -/
theorem retry_bound {α : Type} (t : String → Nat → Except Unit α)
    (tp : String → Option String → Nat → Except Unit α)
    (url : String) (params : List (String × String)) (data : Option String)
    (tries : Nat)
    (ht : ∀ u i, t u i = .error ())
    (htp : ∀ u d i, tp u d i = .error ()) :
    (get t url params tries 0).1 = .exit tries ∧
    (post tp url params data tries 0).1 = .exit tries := by
  constructor
  · show getLoop (t (buildUrlD url params).1) tries 0 = _
    simpa using getLoop_allFail _ tries 0 fun i _ => ht _ i
  · show getLoop (tp (buildUrlD url params).1 data) tries 0 = _
    simpa using getLoop_allFail _ tries 0 fun i _ => htp _ data i

/-- Witness for C2 at the default `tries = 3`. -/
theorem retry_bound_witness :
    (get tFailW "me" [] 3 0).1 = .exit 3 ∧ (post tpFailW "me" [] none 3 0).1 = .exit 3 :=
  retry_bound tFailW tpFailW "me" [] none 3 (fun _ _ => rfl) (fun _ _ _ => rfl)

/-- C5: against a transport that fails the first `tries - 1` attempts and
succeeds on attempt number `tries`, `get` returns the decoded result to the
caller (no `exit`), having used exactly `tries` attempts. -/
theorem retry_recovery {α : Type} (t : String → Nat → Except Unit α) (v : α)
    (url : String) (params : List (String × String)) (tries : Nat)
    (h1 : 1 ≤ tries)
    (hf : ∀ u i, i < tries - 1 → t u i = .error ())
    (hs : ∀ u, t u (tries - 1) = .ok v) :
    (get t url params tries 0).1 = .ok v tries := by
  obtain ⟨n, rfl⟩ : ∃ n, tries = n + 1 := ⟨tries - 1, by omega⟩
  show getLoop (t (buildUrlD url params).1) (n + 1) 0 = _
  have := getLoop_recover (t (buildUrlD url params).1) v n 0
    (fun i hi => by simpa using hf _ i (by omega))
    (by simpa using hs (buildUrlD url params).1)
  simpa using this

/-- Witness for C5 at `tries = 3`. -/
theorem retry_recovery_witness : (get tRecW "me" [] 3 0).1 = .ok 7 3 :=
  retry_recovery tRecW 7 "me" [] 3 (by omega)
    (fun u i hi => by
      match i with
      | 0 => rfl
      | 1 => rfl)
    (fun u => rfl)

/-- C4: URL construction shared by `get` and `post` — path `"me"` yields the
base URL plus `"me"`; a path already starting with the base URL is used
unmodified; a non-empty parameter mapping is URL-encoded in insertion order
and appended after `?` when the URL has no `?` and after `&` when it already
has one. -/
theorem url_construction :
    buildUrl "me" [] = "https://api.spotify.com/v1/me" ∧
    (∀ url, strStartsWith url baseUrl = true → buildUrl url [] = url) ∧
    (∀ url params, params ≠ [] → strStartsWith url baseUrl = true →
      strContains url '?' = false → buildUrl url params = url ++ "?" ++ urlencode params) ∧
    (∀ url params, params ≠ [] → strStartsWith url baseUrl = true →
      strContains url '?' = true → buildUrl url params = url ++ "&" ++ urlencode params) ∧
    urlencode [("a", "1"), ("b", "2")] = "a=1&b=2" ∧
    buildUrl "me" [("a", "1"), ("b", "2")] = "https://api.spotify.com/v1/me?a=1&b=2" ∧
    buildUrl "https://api.spotify.com/v1/x?x=1" [("a", "1"), ("b", "2")]
      = "https://api.spotify.com/v1/x?x=1&a=1&b=2" := by
  refine ⟨rfl, ?_, ?_, ?_, rfl, rfl, rfl⟩
  · intro url h
    simp [buildUrl, buildUrlD, dictTruth, h]
  · intro url params hne h hq
    cases params with
    | nil => exact absurd rfl hne
    | cons p ps => simp [buildUrl, buildUrlD, dictTruth, dictUrlencode, h, hq]
  · intro url params hne h hq
    cases params with
    | nil => exact absurd rfl hne
    | cons p ps => simp [buildUrl, buildUrlD, dictTruth, dictUrlencode, h, hq]

/-- Witness for C4's quantified conjuncts. -/
theorem url_construction_witness :
    buildUrl "https://api.spotify.com/v1/me" [] = "https://api.spotify.com/v1/me" ∧
    buildUrl "https://api.spotify.com/v1/me" [("a", "1")]
      = "https://api.spotify.com/v1/me?a=1" ∧
    buildUrl "https://api.spotify.com/v1/me?x=1" [("a", "1")]
      = "https://api.spotify.com/v1/me?x=1&a=1" :=
  ⟨url_construction.2.1 _ rfl,
   url_construction.2.2.1 _ [("a", "1")] (by simp) rfl rfl,
   url_construction.2.2.2.1 _ [("a", "1")] (by simp) rfl rfl⟩

/-- C6: the authorization URL built for `client_id = "X"`, `scope = "a b"`
carries the query string `response_type=token&client_id=X&scope=a+b`
followed by a `redirect_uri` parameter that URL-encodes
`http://127.0.0.1:43019/redirect`, with the fixed port 43019. -/
theorem authorize_url :
    authorizeUrl "X" "a b"
      = "https://accounts.spotify.com/authorize?"
        ++ "response_type=token&client_id=X&scope=a+b"
        ++ "&redirect_uri=" ++ "http%3A%2F%2F127.0.0.1%3A43019%2Fredirect" ∧
    quotePlus ("http://127.0.0.1:" ++ toString SERVER_PORT ++ "/redirect")
      = "http%3A%2F%2F127.0.0.1%3A43019%2Fredirect" ∧
    SERVER_PORT = 43019 :=
  ⟨rfl, rfl, rfl⟩

/-- C1: for a response sequence of `k` pages served in page order — every
page before the last carrying a truthy `next` link and the last page's
`next` being null — `list` returns exactly the concatenation of the pages'
`items` arrays in page order (all `T` items, no duplicates, no gaps), and
the walker terminates exactly at the null `next`: fuel `k - 1`, one
follow-up request per remaining page, suffices and the outcome is `.ok`,
not `.fuelOut`. -/
theorem pagination_completeness {α : Type} (t : String → Nat → Except Unit (Page α))
    (url : String) (params : List (String × String)) (ps : List (Page α))
    (hne : ps ≠ [])
    (ht : ∀ u i (h : i < ps.length), t u i = .ok (ps.get ⟨i, h⟩))
    (hchain : wellChained ps) :
    (list t url params (ps.length - 1)).1 = .ok ((ps.map Page.items).flatten) := by
  match ps, hne with
  | p :: rest, _ =>
    have hget : (get t url params 3 0).1 = .ok p 1 :=
      get_firstTry t p url params 0 (by simpa using ht (buildUrlD url params).1 0 (by simp))
    have ht' : ∀ v i (h : i < rest.length), t v (1 + i) = .ok (rest.get ⟨i, h⟩) := by
      intro v i h
      rw [Nat.add_comm 1 i]
      exact ht v (i + 1) (by simp; omega)
    have hrec := listGo_chain t rest 1 p.items p.next ht'
      (linkOk_of_wellChained rest p hchain)
    show (list t url params ((p :: rest).length - 1)).1 = _
    simp only [list, hget, List.length_cons, Nat.add_sub_cancel]
    rw [hrec]
    simp

/-- Witness for C1: two pages, three items. -/
theorem pagination_completeness_witness :
    (list tPagesW "playlists" [] 1).1 = .ok [10, 20, 30] :=
  pagination_completeness tPagesW "playlists" [] pagesW (by simp [pagesW])
    (fun u i h => by
      match i with
      | 0 => rfl
      | 1 => rfl
      | n + 2 => exact absurd h (by simp [pagesW]))
    ⟨rfl, rfl⟩

/-- C7: if a mid-pagination `get` exhausts its retries — here the first page
arrives but every attempt at the follow-up request fails — the whole `list`
operation is fatal (`sys.exit(1)`, non-zero status): the result is `.fatal`,
which carries no items, so no partially-accumulated list reaches the
caller. -/
theorem pagination_failure_fatal {α : Type} (t : String → Nat → Except Unit (Page α))
    (url : String) (params : List (String × String)) (p0 : Page α) (fuel : Nat)
    (h0 : ∀ u, t u 0 = .ok p0)
    (hnext : optTruthy p0.next = true)
    (hfail : ∀ u i, 1 ≤ i → t u i = .error ())
    (hfuel : 1 ≤ fuel) :
    (list t url params fuel).1 = .fatal := by
  obtain ⟨f, rfl⟩ : ∃ f, fuel = f + 1 := ⟨fuel - 1, by omega⟩
  have hget : (get t url params 3 0).1 = .ok p0 1 :=
    get_firstTry t p0 url params 0 (h0 _)
  obtain ⟨u, hu⟩ : ∃ u, p0.next = some u := by
    match h : p0.next with
    | none => rw [h] at hnext; simp [optTruthy] at hnext
    | some u => exact ⟨u, rfl⟩
  have hune : u.data.isEmpty = false := by
    rw [hu] at hnext
    cases hul : u.data.isEmpty with
    | false => rfl
    | true => simp [optTruthy, hul] at hnext
  have hget2 : (get t u [] 3 1).1 = .exit 4 := by
    show getLoop (t (buildUrlD u []).1) 3 1 = _
    exact getLoop_allFail _ 3 1 fun i hi => hfail _ i hi
  simp only [list, hget, hu, listGo, hune, Bool.false_eq_true, if_false, hget2]

/-- Witness for C7: the follow-up request always fails. -/
theorem pagination_failure_fatal_witness :
    (list tMidFailW "playlists" [] 1).1 = .fatal :=
  pagination_failure_fatal tMidFailW "playlists" []
    ⟨[10, 20], some "https://api.spotify.com/v1/p2", 3⟩ 1
    (fun _ => rfl) rfl
    (fun u i hi => by
      match i, hi with
      | i + 1, _ => rfl)
    (by omega)

/-- C3: the capture server's serving loop — `/redirect` requests are
answered with the forwarding page and do not terminate the loop; unknown
routes are answered with 404 and do not terminate the loop; a sequence of
such requests leaves the loop waiting; and the first successfully handled
`/token` request terminates the loop immediately (exactly once), whatever
requests would come after it. -/
theorem capture_termination :
    (∀ p, strStartsWith p "/redirect" = true → do_GET p = .redirectPage) ∧
    (∀ p, strStartsWith p "/redirect" = false → strStartsWith p "/token?" = false →
      do_GET p = .notFound) ∧
    (∀ reqs, (∀ q ∈ reqs, do_GET q = .redirectPage ∨ do_GET q = .notFound) →
      serveLoop reqs = .waiting) ∧
    (∀ reqs more p tok,
      (∀ q ∈ reqs, do_GET q = .redirectPage ∨ do_GET q = .notFound) →
      do_GET p = .tokenRaise tok →
      serveLoop (reqs ++ p :: more) = .token tok) := by
  refine ⟨?_, ?_, ?_, ?_⟩
  · intro p h
    simp [do_GET, h]
  · intro p h1 h2
    simp [do_GET, h1, h2]
  · intro reqs h
    rw [← List.append_nil reqs, serveLoop_skips reqs h []]
    rfl
  · intro reqs more p tok h hp
    rw [serveLoop_skips reqs h (p :: more)]
    simp [serveLoop, hp]

/-- Witness for C3: a `/redirect` hit and an unknown route keep the loop
waiting; a subsequent `/token` hit ends it. -/
theorem capture_termination_witness :
    do_GET "/redirect" = .redirectPage ∧
    do_GET "/nope" = .notFound ∧
    serveLoop ["/redirect", "/nope"] = .waiting ∧
    serveLoop ["/redirect", "/nope", "/token?access_token=T"] = .token "T" :=
  ⟨capture_termination.1 "/redirect" rfl,
   capture_termination.2.1 "/nope" rfl rfl,
   capture_termination.2.2.1 ["/redirect", "/nope"]
     (by
       intro q hq
       simp only [List.mem_cons, List.not_mem_nil, or_false] at hq
       rcases hq with rfl | rfl
       · exact Or.inl rfl
       · exact Or.inr rfl),
   capture_termination.2.2.2 ["/redirect", "/nope"] [] "/token?access_token=T" "T"
     (by
       intro q hq
       simp only [List.mem_cons, List.not_mem_nil, or_false] at hq
       rcases hq with rfl | rfl
       · exact Or.inl rfl
       · exact Or.inr rfl)
     rfl⟩

/-- C9: a GET whose path starts with `/token?` but whose query carries no
`access_token` parameter makes the pattern match fail; `handle_error`
re-raises and `authorize` catches only the token-carrying `_Authorization`
signal, so `authorize` terminates abnormally, producing no session, instead
of continuing to wait. -/
theorem token_route_without_token_crashes (client_id scope : String) :
    strStartsWith "/token?foo=bar" "/token?" = true ∧
    extractToken "/token?foo=bar" = none ∧
    do_GET "/token?foo=bar" = .matchError ∧
    authorize client_id scope ["/token?foo=bar"] = .abnormal :=
  ⟨rfl, rfl, rfl, rfl⟩

/-- C8, counterexample: the token-extraction pattern `access_token=([^&]*)`
also matches an empty value, so a captured redirect whose `access_token`
value is empty produces a `SpotifyAPI` session whose token is the empty
string — refuting "the session's token string is never empty". -/
theorem bearer_nonempty_counterexample :
    extractToken "/token?access_token=&token_type=Bearer" = some "" ∧
    authorize "X" "scope-a" ["/token?access_token=&token_type=Bearer"]
      = .session ⟨""⟩ :=
  ⟨rfl, rfl⟩

/-- C8, amended: a session built from a caller-supplied token is never empty
(`main` uses the supplied token only when it is truthy, i.e. non-empty); a
session captured from a `/token` redirect carries exactly the redirect's
`access_token` value — `"ABC123"` in the spec's example — and is therefore
non-empty exactly when that value is non-empty; an empty value yields an
empty-token session. -/
theorem bearer_token_amended :
    extractToken "/token?access_token=ABC123&token_type=Bearer" = some "ABC123" ∧
    (∀ tokenArg client_id scope reqs, tokenArg ≠ "" →
      mainSession tokenArg client_id scope reqs = .session ⟨tokenArg⟩) ∧
    (∀ client_id scope p tok reqs more,
      (∀ q ∈ reqs, do_GET q = .redirectPage ∨ do_GET q = .notFound) →
      do_GET p = .tokenRaise tok →
      authorize client_id scope (reqs ++ p :: more) = .session ⟨tok⟩) := by
  refine ⟨rfl, ?_, ?_⟩
  · intro tokenArg client_id scope reqs htok
    have hd : tokenArg.data ≠ [] := by
      intro h
      apply htok
      cases tokenArg with
      | mk l =>
        simp only at h
        subst h
        rfl
    have he : tokenArg.data.isEmpty = false := by
      cases hl : tokenArg.data with
      | nil => exact absurd hl hd
      | cons a as => rfl
    simp [mainSession, he]
  · intro client_id scope p tok reqs more h hp
    simp [authorize, serveLoop_skips reqs h (p :: more), serveLoop, hp]

/-- Witness for C8's amended statement. -/
theorem bearer_token_amended_witness :
    mainSession "MYTOKEN" "X" "scope-a" [] = .session ⟨"MYTOKEN"⟩ ∧
    authorize "X" "scope-a" ["/redirect", "/token?access_token=ABC123&x=1"]
      = .session ⟨"ABC123"⟩ :=
  ⟨bearer_token_amended.2.1 "MYTOKEN" "X" "scope-a" [] (by simp),
   bearer_token_amended.2.2 "X" "scope-a" "/token?access_token=ABC123&x=1" "ABC123"
     ["/redirect"] []
     (by
       intro q hq
       simp only [List.mem_cons, List.not_mem_nil, or_false] at hq
       subst hq
       exact Or.inl rfl)
     rfl⟩

/-- C10: `get`, `post` and `list` only read the supplied query-parameter
mapping (the truthiness test and `urlencode`); after any call the mapping —
including the shared mutable default empty one — is exactly what it was
before. -/
theorem params_not_mutated {α : Type} (t : String → Nat → Except Unit α)
    (tp : String → Option String → Nat → Except Unit α)
    (tl : String → Nat → Except Unit (Page α))
    (url : String) (params : List (String × String)) (data : Option String)
    (tries c fuel : Nat) :
    (get t url params tries c).2 = params ∧
    (post tp url params data tries c).2 = params ∧
    (list tl url params fuel).2 = params := by
  have hb : ∀ (u : String) (d : List (String × String)), (buildUrlD u d).2 = d := by
    intro u d
    simp only [buildUrlD, dictTruth, dictUrlencode]
    split <;> rfl
  refine ⟨hb url params, hb url params, ?_⟩
  show (get tl url params 3 0).2 = params
  exact hb url params

end SpotifyImport
